import Mathlib

/-!
Shallow embedding of the `pdf-compression` repository's image-optimization
core (`src/compression/pdf_processor.py` and
`src/compression/image_optimizer.py`) together with theorems settling the
specification claims.

Modelling conventions:
* Python byte strings are `List ℕ`; only their identity and length matter
  to the embedded code.
* Python `int` is `ℤ` (or `ℕ` where the source value is a length or a
  pixel count, hence non-negative); Python `float` arithmetic appearing in
  the source (`/72.0`, `* 0.98`, scale factors) is carried out exactly
  over `ℚ`, with the literal `0.98` denoting the exact rational `98/100`.
* A raised Python exception is an `Except` error value.  The constructors
  of `PyExn` distinguish exactly the exception classes the source code
  branches on (`ValueError`, `AttributeError`, `ZeroDivisionError`) from
  every other exception.
* The two encoding backends (pyvips buffer writing, PIL `save`) are
  external libraries; they enter the model as opaque function parameters
  of type `Encoder` returning `none` when the backend raises.  The
  repository's own logic around them (cache, skip rules, format policy,
  acceptance gate, replacement) is translated directly from the source.
-/

namespace PdfCompression

/-- Exception classes distinguished by the embedded code. `otherError`
stands for any exception that is neither a `ValueError` nor an
`AttributeError` nor a `ZeroDivisionError`. -/
inductive PyExn where
  | valueError
  | attributeError
  | zeroDivisionError
  | otherError
deriving DecidableEq

/-- The placement rectangle returned by `page.get_image_bbox`, in
1/72-inch page units.  Only `width` and `height` are read by the core. -/
structure Rect where
  width : ℚ
  height : ℚ
deriving DecidableEq

/-- Python `int(x)` on a float: truncation toward zero. -/
def py_int (q : ℚ) : ℤ :=
  if q < 0 then ⌈q⌉ else ⌊q⌋

/-- `width_inches = max(bbox.width / 72.0, 1e-3)`
(pdf_processor.py line 39). -/
def width_inches (bbox : Rect) : ℚ :=
  max (bbox.width / 72) (1 / 1000)

/-- `height_inches = max(bbox.height / 72.0, 1e-3)`
(pdf_processor.py line 40). -/
def height_inches (bbox : Rect) : ℚ :=
  max (bbox.height / 72) (1 / 1000)

/-- `max_width_px = max(int(max_dpi * width_inches), 1)`
(pdf_processor.py line 41). -/
def max_width_px (bbox : Rect) (max_dpi : ℤ) : ℤ :=
  max (py_int (max_dpi * width_inches bbox)) 1

/-- `max_height_px = max(int(max_dpi * height_inches), 1)`
(pdf_processor.py line 42). -/
def max_height_px (bbox : Rect) (max_dpi : ℤ) : ℤ :=
  max (py_int (max_dpi * height_inches bbox)) 1

/-- `scale = min(max_width_px / original_width, max_height_px / original_height)`
(pdf_processor.py line 47). -/
def plan_scale (bbox : Rect) (max_dpi : ℤ) (original_width original_height : ℕ) : ℚ :=
  min ((max_width_px bbox max_dpi : ℚ) / original_width)
      ((max_height_px bbox max_dpi : ℚ) / original_height)

/-- `compute_target_dimensions` (pdf_processor.py lines 15-51).

The `page` / `image_info` pair of the source is replaced by
`bbox_result`, the outcome of the `page.get_image_bbox(image_info)` call:
`.ok bbox` when the lookup returns a rectangle, `.error e` when it raises
exception `e`.  The source catches exactly `ValueError` and
`AttributeError` (lines 27-30); any other exception propagates to the
caller, which this embedding renders as an `Except.error` result.  (The
source's `isinstance(bbox_candidate, tuple)` test is dead here because
`get_image_bbox` is called without `transform=True`.) -/
def compute_target_dimensions (bbox_result : Except PyExn Rect)
    (original_width original_height : ℕ) (max_dpi : Option ℤ) :
    Except PyExn (ℕ × ℕ) :=
  match max_dpi with
  | none => .ok (original_width, original_height)
  | some dpi =>
    if dpi ≤ 0 then .ok (original_width, original_height)
    else
      match bbox_result with
      | .error .valueError => .ok (original_width, original_height)
      | .error .attributeError => .ok (original_width, original_height)
      | .error e => .error e
      | .ok bbox =>
        if (original_width : ℤ) ≤ max_width_px bbox dpi ∧
            (original_height : ℤ) ≤ max_height_px bbox dpi then
          .ok (original_width, original_height)
        else
          let scale := plan_scale bbox dpi original_width original_height
          .ok ((max 1 ⌊(original_width : ℚ) * scale⌋).toNat,
               (max 1 ⌊(original_height : ℚ) * scale⌋).toNat)

/-- The value found at index 0 of `alpha.getextrema()` for the alpha
channel of a decoded image: a numeric minimum (Python `int`/`float`,
carried as `ℤ` since alpha extrema are 8-bit samples) or a non-numeric
value, which the source's `isinstance` guard rejects. -/
inductive ExtremaVal where
  | num (n : ℤ)
  | other
deriving DecidableEq

/-- The value of `image.info.get("transparency")` for a palette image:
a per-index byte table or a single transparency index. -/
inductive PTransparency where
  | table
  | index (n : ℤ)
deriving DecidableEq

/-- The slice of a decoded `PIL.Image.Image` inspected by
`_has_transparency`: the color `mode`, the alpha channel's minimum value
(meaningful for modes `RGBA`/`LA`), and the palette transparency
metadata (meaningful for mode `P`). -/
structure PILImage where
  mode : String
  alphaLow : ExtremaVal
  transparency : Option PTransparency
deriving DecidableEq

/-- `_has_transparency` (image_optimizer.py lines 30-50). -/
def has_transparency (image : PILImage) (smask_present : Bool) : Bool :=
  if smask_present then true
  else if image.mode = "RGBA" ∨ image.mode = "LA" then
    match image.alphaLow with
    | .num lowest => lowest < 255
    | .other => false
  else if image.mode = "P" then
    match image.transparency with
    | none => false
    | some .table => true
    | some (.index n) => n ≠ 255
  else false

/-- The `save_format` chosen by `_optimize_image_with_pyvips`
(image_optimizer.py lines 79-89): `should_convert_png` requires the
extension to be `png`, conversion enabled, no transparency, original
byte size at least the threshold, and bit depth at least 8. -/
def pyvips_save_format (image_ext : String) (convert_large_pngs_to_jpeg : Bool)
    (has_alpha : Bool) (original_size png_to_jpeg_threshold : ℕ) (bpc : ℕ) : String :=
  if image_ext = "png" ∧ convert_large_pngs_to_jpeg ∧ has_alpha = false ∧
      png_to_jpeg_threshold ≤ original_size ∧ 8 ≤ bpc then
    "jpeg"
  else image_ext

/-- The `save_format` chosen by `_optimize_image_with_pil`
(image_optimizer.py lines 172-185): same condition as the pyvips path,
written with the `png` test as the outer branch. -/
def pil_save_format (image_ext : String) (convert_large_pngs_to_jpeg : Bool)
    (has_alpha : Bool) (original_size png_to_jpeg_threshold : ℕ) (bpc : ℕ) : String :=
  if image_ext = "png" then
    if convert_large_pngs_to_jpeg ∧ has_alpha = false ∧
        png_to_jpeg_threshold ≤ original_size ∧ 8 ≤ bpc then
      "jpeg"
    else "png"
  else image_ext

/-- `ImageOptimizationResult` (image_optimizer.py lines 22-27). -/
structure ImageOptimizationResult where
  optimized : Bool
  data : Option (List ℕ)
  original_size : ℕ
  optimized_size : ℕ
deriving DecidableEq

instance exceptDecEq {ε α : Type} [DecidableEq ε] [DecidableEq α] :
    DecidableEq (Except ε α) := fun x y =>
  match x, y with
  | .ok a, .ok b =>
    if h : a = b then .isTrue (by rw [h])
    else .isFalse (fun hc => h (by injection hc))
  | .error a, .error b =>
    if h : a = b then .isTrue (by rw [h])
    else .isFalse (fun hc => h (by injection hc))
  | .ok _, .error _ => .isFalse (fun hc => by injection hc)
  | .error _, .ok _ => .isFalse (fun hc => by injection hc)

/-- One embedded image occurrence as `optimize_image` sees it: the
`extract_image` fields for its xref, the truthiness of `image_info[1]`
(the soft-mask slot), the outcome of the `page.get_image_bbox` lookup,
and the decoded pixel data inspected by `_has_transparency`.  `ext` is
already lower-cased, as in the source (`base_image["ext"].lower()`). -/
structure ImageRef where
  xref : ℕ
  payload : List ℕ
  ext : String
  width : ℕ
  height : ℕ
  bpc : ℕ
  smask : Bool
  bbox_result : Except PyExn Rect
  decoded : PILImage
deriving DecidableEq

/-- The arguments handed to an encoding backend, mirroring the parameter
list of `_optimize_image_with_pyvips` (image_optimizer.py lines 53-65). -/
structure EncArgs where
  payload : List ℕ
  image_ext : String
  original_width : ℕ
  original_height : ℕ
  target_width : ℕ
  target_height : ℕ
  has_alpha : Bool
  image_quality : ℤ
  convert_large_pngs_to_jpeg : Bool
  png_to_jpeg_threshold : ℕ
  original_size : ℕ
  bpc : ℕ
deriving DecidableEq

/-- An encoding backend: produces the re-encoded bytes, or `none` when
the backend raises (decode failure, unsupported color space, resource
error).  The pyvips and PIL backends are external code, hence opaque
parameters of the model. -/
def Encoder : Type := EncArgs → Option (List ℕ)

/-- The configuration options threaded through `_compress_document` into
`optimize_image`. -/
structure Config where
  image_quality : ℤ
  max_dpi : Option ℤ
  skip_small_images : Bool
  small_image_threshold : ℕ
  convert_large_pngs_to_jpeg : Bool
  png_to_jpeg_threshold : ℕ
deriving DecidableEq

/-- Observable state of one compression run: the digest-keyed
optimization cache, the sequence of `page.replace_image(xref, stream=...)`
calls performed on the host document, and (as instrumentation) the
sequence of payload digests for which the dual-backend encoding phase
was entered.  The SHA-1 digest of a payload is modelled as the payload
bytes themselves; the code relies only on equal bytes yielding equal
digests. -/
structure DocState where
  cache : List (List ℕ × ImageOptimizationResult)
  replaced : List (ℕ × List ℕ)
  encoded : List (List ℕ)
deriving DecidableEq

/-- `cache.get(digest)`: first entry wins, so that prepending a new
entry models Python dict assignment for a key that is not yet present. -/
def cache_get : List (List ℕ × ImageOptimizationResult) → List ℕ →
    Option ImageOptimizationResult
  | [], _ => none
  | (k, v) :: rest, digest => if k = digest then some v else cache_get rest digest

/-- Number of times payload `p` occurs in an instrumentation trace. -/
def count_payload : List (List ℕ) → List ℕ → ℕ
  | [], _ => 0
  | q :: rest, p => (if q = p then 1 else 0) + count_payload rest p

/-- The `has_alpha` value computed in `optimize_image`'s try block
(image_optimizer.py lines 277-282): `False` unless a soft mask is
present or the extension is `png`, in which case the payload is decoded
and `_has_transparency` is consulted. -/
def pipeline_has_alpha (img : ImageRef) : Bool :=
  if img.smask ∨ img.ext = "png" then has_transparency img.decoded img.smask
  else false

/-- The argument record `optimize_image` passes to
`_optimize_image_with_pyvips` (image_optimizer.py lines 284-297). -/
def pyvips_args (cfg : Config) (img : ImageRef)
    (target_width target_height : ℕ) (has_alpha : Bool) : EncArgs :=
  { payload := img.payload
    image_ext := img.ext
    original_width := img.width
    original_height := img.height
    target_width := target_width
    target_height := target_height
    has_alpha := has_alpha
    image_quality := cfg.image_quality
    convert_large_pngs_to_jpeg := cfg.convert_large_pngs_to_jpeg
    png_to_jpeg_threshold := cfg.png_to_jpeg_threshold
    original_size := img.payload.length
    bpc := img.bpc }

/-- The argument record for the PIL fallback encode
(image_optimizer.py lines 159-209); the PIL path always decodes the
payload, so its `has_alpha` is `_has_transparency(decoded, smask)`. -/
def pil_args (cfg : Config) (img : ImageRef)
    (target_width target_height : ℕ) : EncArgs :=
  { payload := img.payload
    image_ext := img.ext
    original_width := img.width
    original_height := img.height
    target_width := target_width
    target_height := target_height
    has_alpha := has_transparency img.decoded img.smask
    image_quality := cfg.image_quality
    convert_large_pngs_to_jpeg := cfg.convert_large_pngs_to_jpeg
    png_to_jpeg_threshold := cfg.png_to_jpeg_threshold
    original_size := img.payload.length
    bpc := img.bpc }

/-- `_optimize_image_with_pil` (image_optimizer.py lines 108-223).
It re-derives the digest, replays the cache, re-applies the two skip
rules, recomputes the target dimensions, encodes through the PIL
backend (`encP`), and applies the acceptance gate.  A raise from the
backend (or from the dimension lookup) is an `Except.error`; the source
literal `0.98` is the exact rational `98/100` in the gate. -/
def optimize_image_with_pil (cfg : Config) (encP : Encoder) (img : ImageRef)
    (s : DocState) : Except PyExn (Bool × ℕ × ℕ) × DocState :=
  let digest := img.payload
  let original_size := img.payload.length
  match cache_get s.cache digest with
  | some cached =>
    match cached.data with
    | some d =>
      if cached.optimized then
        (.ok (true, cached.original_size, cached.optimized_size),
         { s with replaced := s.replaced ++ [(img.xref, d)] })
      else (.ok (false, cached.original_size, cached.original_size), s)
    | none => (.ok (false, cached.original_size, cached.original_size), s)
  | none =>
    if cfg.skip_small_images ∧ original_size ≤ cfg.small_image_threshold then
      (.ok (false, original_size, original_size),
       { s with cache := (digest, ⟨false, none, original_size, original_size⟩) :: s.cache })
    else if img.bpc ≤ 1 ∧ img.ext ≠ "png" then
      (.ok (false, original_size, original_size),
       { s with cache := (digest, ⟨false, none, original_size, original_size⟩) :: s.cache })
    else
      match compute_target_dimensions img.bbox_result img.width img.height cfg.max_dpi with
      | .error e => (.error e, s)
      | .ok (target_width, target_height) =>
        match encP (pil_args cfg img target_width target_height) with
        | none => (.error .otherError, s)
        | some optimized_bytes =>
          let optimized_size := optimized_bytes.length
          if (optimized_size : ℚ) ≥ (original_size : ℚ) * (98 / 100) then
            (.ok (false, original_size, original_size),
             { s with cache := (digest, ⟨false, none, original_size, original_size⟩) :: s.cache })
          else
            (.ok (true, original_size, optimized_size),
             { s with
                 cache := (digest, ⟨true, some optimized_bytes, original_size, optimized_size⟩) :: s.cache
                 replaced := s.replaced ++ [(img.xref, optimized_bytes)] })

/-- `optimize_image` (image_optimizer.py lines 226-328): digest and
cache replay, the two skip rules, target-dimension planning, the pyvips
attempt (`encV`) with the acceptance gate, and on any raise from the
pyvips phase the PIL fallback.  Entering the encoding phase appends the
digest to the `encoded` instrumentation trace (the pyvips attempt plus
its PIL fallback count as one entry into the dual-backend encoder). -/
def optimize_image (cfg : Config) (encV encP : Encoder) (img : ImageRef)
    (s : DocState) : Except PyExn (Bool × ℕ × ℕ) × DocState :=
  let digest := img.payload
  let original_size := img.payload.length
  match cache_get s.cache digest with
  | some cached =>
    match cached.data with
    | some d =>
      if cached.optimized then
        (.ok (true, cached.original_size, cached.optimized_size),
         { s with replaced := s.replaced ++ [(img.xref, d)] })
      else (.ok (false, cached.original_size, cached.original_size), s)
    | none => (.ok (false, cached.original_size, cached.original_size), s)
  | none =>
    if cfg.skip_small_images ∧ original_size ≤ cfg.small_image_threshold then
      (.ok (false, original_size, original_size),
       { s with cache := (digest, ⟨false, none, original_size, original_size⟩) :: s.cache })
    else if img.bpc ≤ 1 ∧ img.ext ≠ "png" then
      (.ok (false, original_size, original_size),
       { s with cache := (digest, ⟨false, none, original_size, original_size⟩) :: s.cache })
    else
      match compute_target_dimensions img.bbox_result img.width img.height cfg.max_dpi with
      | .error e => (.error e, s)
      | .ok (target_width, target_height) =>
        let s1 := { s with encoded := s.encoded ++ [digest] }
        match encV (pyvips_args cfg img target_width target_height (pipeline_has_alpha img)) with
        | none => optimize_image_with_pil cfg encP img s1
        | some optimized_bytes =>
          let optimized_size := optimized_bytes.length
          if (optimized_size : ℚ) ≥ (original_size : ℚ) * (98 / 100) then
            (.ok (false, original_size, original_size),
             { s1 with cache := (digest, ⟨false, none, original_size, original_size⟩) :: s1.cache })
          else
            (.ok (true, original_size, optimized_size),
             { s1 with
                 cache := (digest, ⟨true, some optimized_bytes, original_size, optimized_size⟩) :: s1.cache
                 replaced := s1.replaced ++ [(img.xref, optimized_bytes)] })

/-- The seen-xref filter of the `_iter_unique_images` generator
(pdf_processor.py lines 54-64) applied to an already-fetched flat image
list: page order with within-page discovery order, keeping only the
first occurrence of each xref.  `seen` is the `seen_xrefs` set.  The
fallible host calls the generator performs to obtain that list
(`doc[page_index]`, `page.get_images`) are modelled by `PageImages` and
`compress_pages` below; `process_page_images_eq_filtered` relates the
two views. -/
def iter_unique_images_aux (seen : List ℕ) : List ImageRef → List ImageRef
  | [] => []
  | img :: rest =>
    if img.xref ∈ seen then iter_unique_images_aux seen rest
    else img :: iter_unique_images_aux (img.xref :: seen) rest

/-- The `_iter_unique_images` filter starting from an empty
`seen_xrefs` set. -/
def iter_unique_images (images : List ImageRef) : List ImageRef :=
  iter_unique_images_aux [] images

/-- The aggregate counters accumulated by `_compress_document`. -/
structure RunStats where
  images_replaced : ℕ
  total_original : ℕ
  total_optimized : ℕ
deriving DecidableEq

/-- The per-image loop of `_compress_document` (pdf_processor.py lines
84-106) over an already-resolved unique image list: each image's
optimization attempt is wrapped in the `try/except Exception: continue`
boundary, and stats accumulate only over optimized (Accepted) outcomes.
This is the loop as it behaves when the enumeration's host calls never
raise; `compress_pages` models the loop with fallible enumeration. -/
def process_images (cfg : Config) (encV encP : Encoder) :
    List ImageRef → RunStats → DocState → RunStats × DocState
  | [], stats, s => (stats, s)
  | img :: rest, stats, s =>
    match optimize_image cfg encV encP img s with
    | (.error _, s1) => process_images cfg encV encP rest stats s1
    | (.ok (optimized, original_size, optimized_size), s1) =>
      if optimized then
        process_images cfg encV encP rest
          ⟨stats.images_replaced + 1, stats.total_original + original_size,
           stats.total_optimized + optimized_size⟩ s1
      else process_images cfg encV encP rest stats s1

/-- `_compress_document` (pdf_processor.py lines 67-107) on a document
whose enumeration succeeds and yields the given flat image list: clamps
the quality to `[1, 100]`, applies the unique-xref filter, and runs the
per-image loop from an empty cache and empty instrumentation traces.
`compress_document_run_single_page` grounds this in the fallible
page-level model. -/
def compress_document (images : List ImageRef) (image_quality : ℤ)
    (max_dpi : Option ℤ) (skip_small_images : Bool) (small_image_threshold : ℕ)
    (convert_large_pngs_to_jpeg : Bool) (png_to_jpeg_threshold : ℕ)
    (encV encP : Encoder) : RunStats × DocState :=
  let quality := max 1 (min image_quality 100)
  let cfg : Config :=
    ⟨quality, max_dpi, skip_small_images, small_image_threshold,
     convert_large_pngs_to_jpeg, png_to_jpeg_threshold⟩
  process_images cfg encV encP (iter_unique_images images) ⟨0, 0, 0⟩ ⟨[], [], []⟩

/-- The outcome of the host calls the `_iter_unique_images` generator
performs for one page: `doc[page_index]` followed by
`page.get_images(full=True)` yield the page's image references in
discovery order, or one of those calls raises.  The generator is lazy,
so such an exception surfaces at the `for` statement of
`_compress_document` — outside the per-image `try` (pdf_processor.py
lines 84-100). -/
def PageImages : Type := Except PyExn (List ImageRef)

/-- The images of one successfully fetched page, consumed as
`_compress_document`'s `for` loop does: the generator's seen-xref filter
(pdf_processor.py lines 60-63) interleaved with the per-image
`try/except` around `optimize_image` (lines 85-100), accumulating stats
over Accepted outcomes.  Returns the grown seen-set with the updated
stats and run state. -/
def process_page_images (cfg : Config) (encV encP : Encoder) :
    List ImageRef → List ℕ → RunStats → DocState → List ℕ × RunStats × DocState
  | [], seen, stats, s => (seen, stats, s)
  | img :: rest, seen, stats, s =>
    if img.xref ∈ seen then process_page_images cfg encV encP rest seen stats s
    else
      match optimize_image cfg encV encP img s with
      | (.error _, s1) =>
        process_page_images cfg encV encP rest (img.xref :: seen) stats s1
      | (.ok (optimized, original_size, optimized_size), s1) =>
        if optimized then
          process_page_images cfg encV encP rest (img.xref :: seen)
            ⟨stats.images_replaced + 1, stats.total_original + original_size,
             stats.total_optimized + optimized_size⟩ s1
        else process_page_images cfg encV encP rest (img.xref :: seen) stats s1

/-- The page-level loop of `_compress_document` with fallible
enumeration: pages are consumed lazily, and a page whose host calls
raise aborts the loop at the `for` statement — outside the per-image
`try` — so the exception propagates out of `_compress_document` (and
hence out of `compress_pdf`); mutations already applied to the document
remain. -/
def compress_pages (cfg : Config) (encV encP : Encoder) :
    List PageImages → List ℕ → RunStats → DocState → Except PyExn RunStats × DocState
  | [], _, stats, s => (.ok stats, s)
  | .error e :: _, _, _, s => (.error e, s)
  | .ok images :: rest, seen, stats, s =>
    match process_page_images cfg encV encP images seen stats s with
    | (seen1, stats1, s1) => compress_pages cfg encV encP rest seen1 stats1 s1

/-- `_compress_document` over a document with fallible page enumeration:
quality clamp, then the page-level loop from an empty seen-set, zero
stats, and empty run state.  The `Except` in the first component records
whether the run completed or propagated an enumeration exception to the
caller. -/
def compress_document_run (pages : List PageImages) (image_quality : ℤ)
    (max_dpi : Option ℤ) (skip_small_images : Bool) (small_image_threshold : ℕ)
    (convert_large_pngs_to_jpeg : Bool) (png_to_jpeg_threshold : ℕ)
    (encV encP : Encoder) : Except PyExn RunStats × DocState :=
  let quality := max 1 (min image_quality 100)
  let cfg : Config :=
    ⟨quality, max_dpi, skip_small_images, small_image_threshold,
     convert_large_pngs_to_jpeg, png_to_jpeg_threshold⟩
  compress_pages cfg encV encP pages [] ⟨0, 0, 0⟩ ⟨[], [], []⟩

/-- The record returned by `get_compression_stats`. -/
structure CompressionStats where
  original_size : ℕ
  compressed_size : ℕ
  reduction_bytes : ℤ
  reduction_percent : ℚ
deriving DecidableEq

/-- `get_compression_stats` (pdf_processor.py lines 235-262).  The
division `reduction_bytes / original_size` is unguarded in the source;
Python raises `ZeroDivisionError` when `original_size` is `0`, rendered
here as an `Except.error`. -/
def get_compression_stats (original_bytes compressed_bytes : List ℕ) :
    Except PyExn CompressionStats :=
  let original_size := original_bytes.length
  let compressed_size := compressed_bytes.length
  let reduction_bytes : ℤ := (original_size : ℤ) - (compressed_size : ℤ)
  if original_size = 0 then .error .zeroDivisionError
  else
    .ok ⟨original_size, compressed_size, reduction_bytes,
         (reduction_bytes : ℚ) / (original_size : ℚ) * 100⟩

/-- Invariant of a compression run: every payload digest occurs at most
once in the encode trace, and a digest that has been through the
encoding phase has a cache entry. -/
def cache_inv (s : DocState) : Prop :=
  ∀ p, count_payload s.encoded p ≤ 1 ∧
    (1 ≤ count_payload s.encoded p → cache_get s.cache p ≠ none)

/-! Concrete fixtures used to instantiate theorems with hypotheses. -/

/-- A backend that always succeeds, producing a 1-byte stream. -/
def enc_small : Encoder := fun _ => some [9]

/-- A backend that always raises. -/
def enc_fail : Encoder := fun _ => none

/-- An 8-bpc `png` occurrence at xref 1 with a 4-byte payload. -/
def img_png8 : ImageRef :=
  ⟨1, [7, 7, 7, 7], "png", 10, 10, 8, false, .ok ⟨100, 100⟩, ⟨"RGB", .num 255, none⟩⟩

/-- A 1-bpc `jpg` occurrence at xref 2 declaring the same payload bytes
as `img_png8`. -/
def img_jpg1 : ImageRef :=
  ⟨2, [7, 7, 7, 7], "jpg", 10, 10, 1, false, .ok ⟨100, 100⟩, ⟨"RGB", .num 255, none⟩⟩

/-- An 8-bpc `jpg` occurrence at xref 3. -/
def img_jpg8a : ImageRef :=
  ⟨3, [7, 7, 7, 7], "jpg", 10, 10, 8, false, .ok ⟨100, 100⟩, ⟨"RGB", .num 255, none⟩⟩

/-- An 8-bpc `jpg` occurrence at xref 4 with the same payload bytes as
`img_jpg8a`. -/
def img_jpg8b : ImageRef :=
  ⟨4, [7, 7, 7, 7], "jpg", 10, 10, 8, false, .ok ⟨100, 100⟩, ⟨"RGB", .num 255, none⟩⟩

/-! ## Theorems -/

/-- Claim C8: for every bounding box and every pair of original
dimensions, when the DPI ceiling is `None`, `0`, or negative,
`compute_target_dimensions` returns exactly the original width and
height. -/
theorem c8_dpi_noop (bbox_result : Except PyExn Rect)
    (original_width original_height : ℕ) (max_dpi : Option ℤ)
    (h : max_dpi = none ∨ ∃ d, max_dpi = some d ∧ d ≤ 0) :
    compute_target_dimensions bbox_result original_width original_height max_dpi =
      .ok (original_width, original_height) := by
  rcases h with rfl | ⟨d, rfl, hd⟩
  · rfl
  · simp [compute_target_dimensions, hd]

/-- Witness for C8 at a concrete input: DPI ceiling `0` with a failing
bbox lookup still returns the original dimensions. -/
theorem c8_dpi_noop_witness :
    compute_target_dimensions (.error .otherError) 5 7 (some 0) = .ok (5, 7) :=
  c8_dpi_noop (.error .otherError) 5 7 (some 0) (.inr ⟨0, rfl, by decide⟩)

/-- Claim C7, counterexample: the source catches only `ValueError` and
`AttributeError` from the bbox lookup (pdf_processor.py lines 27-30), so
a lookup failing with any other exception does not fail open — the
exception surfaces to the caller instead of the original dimensions
being returned. -/
theorem c7_counterexample :
    compute_target_dimensions (.error .otherError) 1000 800 (some 150) =
        .error .otherError ∧
    ¬ compute_target_dimensions (.error .otherError) 1000 800 (some 150) =
        .ok (1000, 800) := by
  decide

/-- Claim C7, amended: when the placement bounding-box lookup raises a
`ValueError` or an `AttributeError`, `compute_target_dimensions` fails
open and returns the original width and height unchanged; a lookup
failing with any other exception propagates that exception to the
caller (where it is caught at the per-image boundary of
`_compress_document`). -/
theorem c7_fail_open_amended (original_width original_height : ℕ)
    (max_dpi : Option ℤ) (e : PyExn) :
    ((e = .valueError ∨ e = .attributeError) →
      compute_target_dimensions (.error e) original_width original_height max_dpi =
        .ok (original_width, original_height)) ∧
    (∀ d, max_dpi = some d → 0 < d → e ≠ .valueError → e ≠ .attributeError →
      compute_target_dimensions (.error e) original_width original_height max_dpi =
        .error e) := by
  constructor
  · rintro (rfl | rfl) <;> cases max_dpi with
    | none => rfl
    | some d =>
      by_cases hd : d ≤ 0 <;> simp [compute_target_dimensions, hd]
  · rintro d rfl hd h1 h2
    cases e <;> simp_all [compute_target_dimensions, not_le.mpr hd]

/-- Witness for C7 (amended) at a concrete input: a `ValueError` from
the bbox lookup fails open. -/
theorem c7_fail_open_amended_witness :
    compute_target_dimensions (.error .valueError) 10 8 (some 150) = .ok (10, 8) :=
  (c7_fail_open_amended 10 8 (some 150) .valueError).1 (Or.inl rfl)

/-- Claim C3: for positive original dimensions and any bounding box and
DPI ceiling, the planner returns a pair bounded above by the original
dimensions and below by 1 on each axis; and whenever the ceiling is
positive and some original dimension exceeds its per-axis pixel maximum,
both axes are scaled by the single factor
`min(max_width_px / original_width, max_height_px / original_height)`,
floored, and clamped to a minimum of 1. -/
theorem c3_planner_bounds (bbox : Rect) (original_width original_height : ℕ)
    (max_dpi : Option ℤ) (hw : 0 < original_width) (hh : 0 < original_height) :
    ∃ w h,
      compute_target_dimensions (.ok bbox) original_width original_height max_dpi =
        .ok (w, h) ∧
      w ≤ original_width ∧ h ≤ original_height ∧ 1 ≤ w ∧ 1 ≤ h ∧
      ∀ d, max_dpi = some d → 0 < d →
        ¬ ((original_width : ℤ) ≤ max_width_px bbox d ∧
            (original_height : ℤ) ≤ max_height_px bbox d) →
        w = (max 1 ⌊(original_width : ℚ) *
              plan_scale bbox d original_width original_height⌋).toNat ∧
        h = (max 1 ⌊(original_height : ℚ) *
              plan_scale bbox d original_width original_height⌋).toNat := by
  cases max_dpi with
  | none =>
    exact ⟨original_width, original_height, rfl, le_refl _, le_refl _, hw, hh,
      fun d hd => by cases hd⟩
  | some d =>
    by_cases hd : d ≤ 0
    · refine ⟨original_width, original_height, ?_, le_refl _, le_refl _, hw, hh, ?_⟩
      · simp [compute_target_dimensions, hd]
      · rintro d' hd' hpos
        obtain rfl : d' = d := by injection hd' with h; exact h.symm
        exact absurd hd (not_le.mpr hpos)
    · by_cases hin : (original_width : ℤ) ≤ max_width_px bbox d ∧
          (original_height : ℤ) ≤ max_height_px bbox d
      · refine ⟨original_width, original_height, ?_, le_refl _, le_refl _, hw, hh, ?_⟩
        · simp [compute_target_dimensions, hd, hin]
        · rintro d' hd' hpos hnot
          obtain rfl : d' = d := by injection hd' with h; exact h.symm
          exact absurd hin hnot
      · -- the scaling branch: the uniform scale factor is at most 1
        have hwq : (0 : ℚ) < (original_width : ℚ) := by exact_mod_cast hw
        have hhq : (0 : ℚ) < (original_height : ℚ) := by exact_mod_cast hh
        have hscale : plan_scale bbox d original_width original_height ≤ 1 := by
          rcases not_and_or.mp hin with hlt | hlt
          · have hq : (max_width_px bbox d : ℚ) < (original_width : ℚ) := by
              exact_mod_cast not_le.mp hlt
            exact le_trans (min_le_left _ _) (le_of_lt ((div_lt_one hwq).mpr hq))
          · have hq : (max_height_px bbox d : ℚ) < (original_height : ℚ) := by
              exact_mod_cast not_le.mp hlt
            exact le_trans (min_le_right _ _) (le_of_lt ((div_lt_one hhq).mpr hq))
        have hflw : ⌊(original_width : ℚ) *
            plan_scale bbox d original_width original_height⌋ ≤ (original_width : ℤ) := by
          calc ⌊(original_width : ℚ) * plan_scale bbox d original_width original_height⌋
              ≤ ⌊(original_width : ℚ)⌋ :=
                Int.floor_le_floor (mul_le_of_le_one_right (le_of_lt hwq) hscale)
            _ = (original_width : ℤ) := Int.floor_natCast original_width
        have hflh : ⌊(original_height : ℚ) *
            plan_scale bbox d original_width original_height⌋ ≤ (original_height : ℤ) := by
          calc ⌊(original_height : ℚ) * plan_scale bbox d original_width original_height⌋
              ≤ ⌊(original_height : ℚ)⌋ :=
                Int.floor_le_floor (mul_le_of_le_one_right (le_of_lt hhq) hscale)
            _ = (original_height : ℤ) := Int.floor_natCast original_height
        refine ⟨(max 1 ⌊(original_width : ℚ) *
            plan_scale bbox d original_width original_height⌋).toNat,
          (max 1 ⌊(original_height : ℚ) *
            plan_scale bbox d original_width original_height⌋).toNat,
          ?_, ?_, ?_, ?_, ?_, ?_⟩
        · simp only [compute_target_dimensions, if_neg hd, if_neg hin]
        · have hle : max 1 ⌊(original_width : ℚ) *
              plan_scale bbox d original_width original_height⌋ ≤ (original_width : ℤ) :=
            max_le (by exact_mod_cast hw) hflw
          calc (max 1 ⌊(original_width : ℚ) *
                plan_scale bbox d original_width original_height⌋).toNat
              ≤ ((original_width : ℤ)).toNat := Int.toNat_le_toNat hle
            _ = original_width := Int.toNat_natCast original_width
        · have hle : max 1 ⌊(original_height : ℚ) *
              plan_scale bbox d original_width original_height⌋ ≤ (original_height : ℤ) :=
            max_le (by exact_mod_cast hh) hflh
          calc (max 1 ⌊(original_height : ℚ) *
                plan_scale bbox d original_width original_height⌋).toNat
              ≤ ((original_height : ℤ)).toNat := Int.toNat_le_toNat hle
            _ = original_height := Int.toNat_natCast original_height
        · have h1 : (1 : ℤ) ≤ max 1 ⌊(original_width : ℚ) *
              plan_scale bbox d original_width original_height⌋ := le_max_left _ _
          calc 1 = ((1 : ℤ)).toNat := rfl
            _ ≤ _ := Int.toNat_le_toNat h1
        · have h1 : (1 : ℤ) ≤ max 1 ⌊(original_height : ℚ) *
              plan_scale bbox d original_width original_height⌋ := le_max_left _ _
          calc 1 = ((1 : ℤ)).toNat := rfl
            _ ≤ _ := Int.toNat_le_toNat h1
        · rintro d' hd' hpos hnot
          obtain rfl : d' = d := by injection hd' with h; exact h.symm
          exact ⟨rfl, rfl⟩

/-- Witness for C3 at Scenario A's input: an 800×600 image in a
100pt×100pt box with a 72-DPI ceiling. -/
theorem c3_planner_bounds_witness :
    0 < 800 ∧ 0 < 600 ∧
    ∃ w h,
      compute_target_dimensions (.ok ⟨100, 100⟩) 800 600 (some 72) = .ok (w, h) ∧
      w ≤ 800 ∧ h ≤ 600 ∧ 1 ≤ w ∧ 1 ≤ h ∧
      ∀ d, (some 72 : Option ℤ) = some d → 0 < d →
        ¬ ((800 : ℤ) ≤ max_width_px ⟨100, 100⟩ d ∧
            (600 : ℤ) ≤ max_height_px ⟨100, 100⟩ d) →
        w = (max 1 ⌊(800 : ℚ) * plan_scale ⟨100, 100⟩ d 800 600⌋).toNat ∧
        h = (max 1 ⌊(600 : ℚ) * plan_scale ⟨100, 100⟩ d 800 600⌋).toNat :=
  ⟨by decide, by decide, c3_planner_bounds ⟨100, 100⟩ 800 600 (some 72)
    (by decide) (by decide)⟩

/-- Claim C6: `_has_transparency` applies its rules in priority order:
with the soft-mask flag set it returns `True` regardless of the pixel
data; otherwise for mode `RGBA` or `LA` it returns `True` iff the
minimum alpha value is below 255; otherwise for palette mode `P` it
returns `True` for a byte-array transparency value, the comparison with
255 for a single index, and `False` when the metadata is absent; every
other mode yields `False`. -/
theorem c6_transparency_rules (image : PILImage) :
    (has_transparency image true = true) ∧
    (∀ n, (image.mode = "RGBA" ∨ image.mode = "LA") → image.alphaLow = .num n →
      (has_transparency image false = true ↔ n < 255)) ∧
    ((image.mode = "RGBA" ∨ image.mode = "LA") → image.alphaLow = .other →
      has_transparency image false = false) ∧
    (image.mode = "P" → image.transparency = some .table →
      has_transparency image false = true) ∧
    (∀ n, image.mode = "P" → image.transparency = some (.index n) →
      (has_transparency image false = true ↔ n ≠ 255)) ∧
    (image.mode = "P" → image.transparency = none →
      has_transparency image false = false) ∧
    (image.mode ≠ "RGBA" → image.mode ≠ "LA" → image.mode ≠ "P" →
      has_transparency image false = false) := by
  obtain ⟨mode, alphaLow, transparency⟩ := image
  refine ⟨rfl, ?_, ?_, ?_, ?_, ?_, ?_⟩
  · rintro n hm rfl
    rcases hm with rfl | rfl <;> simp [has_transparency]
  · rintro hm rfl
    rcases hm with rfl | rfl <;> simp [has_transparency]
  · rintro rfl rfl
    simp [has_transparency]
  · rintro n rfl rfl
    simp [has_transparency]
  · rintro rfl rfl
    simp [has_transparency]
  · intro h1 h2 h3
    simp only at h1 h2 h3
    simp [has_transparency, h1, h2, h3]

/-- Witness for C6 at a concrete input: an `RGBA` image whose minimum
alpha is 200 is reported transparent without a soft mask. -/
theorem c6_transparency_rules_witness :
    has_transparency ⟨"RGBA", .num 200, none⟩ false = true :=
  ((c6_transparency_rules ⟨"RGBA", .num 200, none⟩).2.1 200
    (Or.inl rfl) rfl).mpr (by decide)

/-- Claim C4: in both backends' format policy a `png` image is saved as
`jpeg` iff conversion is enabled, the transparency detector reported no
transparency, the original byte size is at least the configured
threshold, and the bit depth is at least 8; a transparent `png` is never
converted, and a `png` below the threshold stays `png`. -/
theorem c4_png_conversion_policy (convert_large_pngs_to_jpeg has_alpha : Bool)
    (original_size png_to_jpeg_threshold bpc : ℕ) :
    (pyvips_save_format "png" convert_large_pngs_to_jpeg has_alpha original_size
        png_to_jpeg_threshold bpc = "jpeg" ↔
      (convert_large_pngs_to_jpeg = true ∧ has_alpha = false ∧
        png_to_jpeg_threshold ≤ original_size ∧ 8 ≤ bpc)) ∧
    (pil_save_format "png" convert_large_pngs_to_jpeg has_alpha original_size
        png_to_jpeg_threshold bpc = "jpeg" ↔
      (convert_large_pngs_to_jpeg = true ∧ has_alpha = false ∧
        png_to_jpeg_threshold ≤ original_size ∧ 8 ≤ bpc)) ∧
    (has_alpha = true →
      pyvips_save_format "png" convert_large_pngs_to_jpeg has_alpha original_size
          png_to_jpeg_threshold bpc = "png" ∧
      pil_save_format "png" convert_large_pngs_to_jpeg has_alpha original_size
          png_to_jpeg_threshold bpc = "png") ∧
    (original_size < png_to_jpeg_threshold →
      pyvips_save_format "png" convert_large_pngs_to_jpeg has_alpha original_size
          png_to_jpeg_threshold bpc = "png" ∧
      pil_save_format "png" convert_large_pngs_to_jpeg has_alpha original_size
          png_to_jpeg_threshold bpc = "png") := by
  refine ⟨?_, ?_, ?_, ?_⟩
  · unfold pyvips_save_format
    split
    · next h => simp only [h.2]; tauto
    · next h =>
      constructor
      · intro hc; exact absurd hc (by decide)
      · intro hc; exact absurd ⟨rfl, hc.1, hc.2.1, hc.2.2.1, hc.2.2.2⟩ h
  · unfold pil_save_format
    rw [if_pos rfl]
    split
    · next h => tauto
    · next h =>
      constructor
      · intro hc; exact absurd hc (by decide)
      · intro hc; exact absurd hc h
  · rintro rfl
    constructor
    · unfold pyvips_save_format
      rw [if_neg]
      rintro ⟨-, -, h, -⟩; cases h
    · unfold pil_save_format
      rw [if_pos rfl, if_neg]
      rintro ⟨-, h, -⟩; cases h
  · intro hlt
    constructor
    · unfold pyvips_save_format
      rw [if_neg]
      rintro ⟨-, -, -, h, -⟩; exact absurd h (not_le.mpr hlt)
    · unfold pil_save_format
      rw [if_pos rfl, if_neg]
      rintro ⟨-, -, h, -⟩; exact absurd h (not_le.mpr hlt)

/-- Witness for C4 at a concrete input: a 300000-byte transparent `png`
above a 200000-byte threshold is kept as `png` by both backends. -/
theorem c4_png_conversion_policy_witness :
    pyvips_save_format "png" true true 300000 200000 8 = "png" ∧
    pil_save_format "png" true true 300000 200000 8 = "png" :=
  (c4_png_conversion_policy true true 300000 200000 8).2.2.1 rfl

/-- Claim C2: for every image that reaches encoding (cache miss, not
skipped as small, not skipped for low bit depth, dimensions planned),
the new bytes are accepted iff `optimized_size < original_size * 0.98`:
on rejection no `replace_image` call happens, the cache records a
non-optimized entry whose optimized size equals the original size, and
the result triple is `(False, original_size, original_size)`; on
acceptance `replace_image` is called at this image's xref with the new
bytes and the Accepted entry is cached.  This holds for the pyvips path
of `optimize_image` and for the PIL path of `_optimize_image_with_pil`
alike. -/
theorem c2_acceptance_gate (cfg : Config) (encV encP : Encoder) (img : ImageRef)
    (s : DocState) (target_width target_height : ℕ)
    (hcache : cache_get s.cache img.payload = none)
    (hsmall : ¬ (cfg.skip_small_images ∧ img.payload.length ≤ cfg.small_image_threshold))
    (hbpc : ¬ (img.bpc ≤ 1 ∧ img.ext ≠ "png"))
    (hdims : compute_target_dimensions img.bbox_result img.width img.height cfg.max_dpi =
      .ok (target_width, target_height)) :
    (∀ optimized_bytes,
      encV (pyvips_args cfg img target_width target_height (pipeline_has_alpha img)) =
        some optimized_bytes →
      if (optimized_bytes.length : ℚ) < (img.payload.length : ℚ) * (98 / 100) then
        optimize_image cfg encV encP img s =
          (.ok (true, img.payload.length, optimized_bytes.length),
           ⟨(img.payload, ⟨true, some optimized_bytes, img.payload.length,
              optimized_bytes.length⟩) :: s.cache,
            s.replaced ++ [(img.xref, optimized_bytes)],
            s.encoded ++ [img.payload]⟩)
      else
        optimize_image cfg encV encP img s =
          (.ok (false, img.payload.length, img.payload.length),
           ⟨(img.payload, ⟨false, none, img.payload.length, img.payload.length⟩) :: s.cache,
            s.replaced,
            s.encoded ++ [img.payload]⟩)) ∧
    (∀ optimized_bytes,
      encP (pil_args cfg img target_width target_height) = some optimized_bytes →
      if (optimized_bytes.length : ℚ) < (img.payload.length : ℚ) * (98 / 100) then
        optimize_image_with_pil cfg encP img s =
          (.ok (true, img.payload.length, optimized_bytes.length),
           ⟨(img.payload, ⟨true, some optimized_bytes, img.payload.length,
              optimized_bytes.length⟩) :: s.cache,
            s.replaced ++ [(img.xref, optimized_bytes)],
            s.encoded⟩)
      else
        optimize_image_with_pil cfg encP img s =
          (.ok (false, img.payload.length, img.payload.length),
           ⟨(img.payload, ⟨false, none, img.payload.length, img.payload.length⟩) :: s.cache,
            s.replaced,
            s.encoded⟩)) := by
  constructor
  · intro b hb
    by_cases hg : (b.length : ℚ) ≥ (img.payload.length : ℚ) * (98 / 100)
    · rw [if_neg (not_lt.mpr hg)]
      simp only [optimize_image, hcache, hdims, hb, if_neg hsmall, if_neg hbpc, if_pos hg]
    · rw [if_pos (not_le.mp hg)]
      simp only [optimize_image, hcache, hdims, hb, if_neg hsmall, if_neg hbpc, if_neg hg]
  · intro b hb
    by_cases hg : (b.length : ℚ) ≥ (img.payload.length : ℚ) * (98 / 100)
    · rw [if_neg (not_lt.mpr hg)]
      simp only [optimize_image_with_pil, hcache, hdims, hb, if_neg hsmall, if_neg hbpc,
        if_pos hg]
    · rw [if_pos (not_le.mp hg)]
      simp only [optimize_image_with_pil, hcache, hdims, hb, if_neg hsmall, if_neg hbpc,
        if_neg hg]

/-- Witness for C2 at a concrete input: a 4-byte `jpg` payload re-encoded
to 1 byte passes the `< 98%` gate, is replaced at its xref, and is cached
as Accepted. -/
theorem c2_acceptance_gate_witness :
    optimize_image ⟨90, none, false, 500000, true, 200000⟩ enc_small enc_fail
        img_jpg8a ⟨[], [], []⟩ =
      (.ok (true, 4, 1),
       ⟨[([7, 7, 7, 7], ⟨true, some [9], 4, 1⟩)], [(3, [9])], [[7, 7, 7, 7]]⟩) := by
  have h := (c2_acceptance_gate ⟨90, none, false, 500000, true, 200000⟩ enc_small enc_fail
    img_jpg8a ⟨[], [], []⟩ 10 10 rfl (by decide) (by decide) rfl).1 [9] rfl
  rw [if_pos (by norm_num [img_jpg8a])] at h
  simpa [img_jpg8a] using h

/-- Claim C9, counterexample: a run on two occurrences declaring
byte-identical payloads, the first an accepted 8-bpc `png` at xref 1 and
the second a 1-bpc `jpg` at xref 2.  The second image satisfies the
claim's guard (`bpc ≤ 1`, extension not `png`), yet because the cache is
consulted before the bit-depth rule, its cached Accepted outcome is
replayed: `replace_image` is called at xref 2, so the image is not left
byte-identical and no skipped entry is recorded for it. -/
theorem c9_counterexample :
    img_jpg1.bpc ≤ 1 ∧ img_jpg1.ext ≠ "png" ∧
    (compress_document [img_png8, img_jpg1] 90 none false 500000 true 200000
        enc_small enc_fail).2.replaced = [(1, [9]), (2, [9])] := by
  refine ⟨by decide, by decide, ?_⟩
  norm_num [compress_document, process_images, iter_unique_images, iter_unique_images_aux,
    optimize_image, cache_get, pipeline_has_alpha, has_transparency, pyvips_args,
    img_png8, img_jpg1, enc_small, enc_fail, compute_target_dimensions]

/-- Claim C9, amended: for every image with bits-per-component ≤ 1 whose
extension is not `png` and whose payload digest is not already in the
cache, `optimize_image` records a skipped (non-optimized) cache entry,
performs no encoding and no document replacement, and returns
`(False, original_size, original_size)`. -/
theorem c9_low_bpc_skip_amended (cfg : Config) (encV encP : Encoder) (img : ImageRef)
    (s : DocState) (hbpc : img.bpc ≤ 1) (hext : img.ext ≠ "png")
    (hcache : cache_get s.cache img.payload = none) :
    optimize_image cfg encV encP img s =
      (.ok (false, img.payload.length, img.payload.length),
       ⟨(img.payload, ⟨false, none, img.payload.length, img.payload.length⟩) :: s.cache,
        s.replaced, s.encoded⟩) := by
  by_cases hs : cfg.skip_small_images ∧ img.payload.length ≤ cfg.small_image_threshold
  · simp only [optimize_image, hcache, if_pos hs]
  · simp only [optimize_image, hcache, if_neg hs, if_pos (And.intro hbpc hext)]

/-- Witness for C9 (amended) at a concrete input: a fresh 1-bpc `jpg`
image is skipped with a cached non-optimized entry. -/
theorem c9_low_bpc_skip_amended_witness :
    optimize_image ⟨90, none, false, 500000, true, 200000⟩ enc_small enc_fail
        img_jpg1 ⟨[], [], []⟩ =
      (.ok (false, 4, 4), ⟨[([7, 7, 7, 7], ⟨false, none, 4, 4⟩)], [], []⟩) := by
  have h := c9_low_bpc_skip_amended ⟨90, none, false, 500000, true, 200000⟩ enc_small
    enc_fail img_jpg1 ⟨[], [], []⟩ (by decide) (by decide) rfl
  simpa [img_jpg1] using h

/-- When `_optimize_image_with_pil` propagates an exception, it has not
altered the run state: the only raising paths are the dimension lookup
(before any mutation) and the PIL backend (before the gate, the cache
write, and the replacement). -/
theorem optimize_image_with_pil_error_state (cfg : Config) (encP : Encoder)
    (img : ImageRef) (s : DocState) (e : PyExn) (s1 : DocState)
    (h : optimize_image_with_pil cfg encP img s = (.error e, s1)) : s1 = s := by
  simp only [optimize_image_with_pil] at h
  split at h
  · split at h
    · split at h <;> simp_all
    · simp_all
  · split at h
    · simp_all
    · split at h
      · simp_all
      · split at h
        · simp_all
        · split at h
          · simp_all
          · split at h <;> simp_all

/-- When `optimize_image` propagates an exception, the cache and the
host document are exactly as before the call (only the encode-attempt
instrumentation may have grown). -/
theorem optimize_image_error_state (cfg : Config) (encV encP : Encoder)
    (img : ImageRef) (s : DocState) (e : PyExn) (s1 : DocState)
    (h : optimize_image cfg encV encP img s = (.error e, s1)) :
    s1.cache = s.cache ∧ s1.replaced = s.replaced := by
  simp only [optimize_image] at h
  split at h
  · split at h
    · split at h <;> simp_all
    · simp_all
  · split at h
    · simp_all
    · split at h
      · simp_all
      · split at h
        · simp_all
        · split at h
          · have := optimize_image_with_pil_error_state _ _ _ _ _ _ h
            subst this
            exact ⟨rfl, rfl⟩
          · split at h <;> simp_all

/-- The fallible page-level loop restricted to one successfully fetched
page computes exactly what the flat loop computes on the generator's
filtered image list: the interleaved seen-xref filter and per-image
`try` agree with filtering first and then folding the per-image `try`. -/
theorem process_page_images_eq_filtered (cfg : Config) (encV encP : Encoder) :
    ∀ (l : List ImageRef) (seen : List ℕ) (stats : RunStats) (s : DocState),
      (process_page_images cfg encV encP l seen stats s).2 =
        process_images cfg encV encP (iter_unique_images_aux seen l) stats s := by
  intro l
  induction l with
  | nil => intro seen stats s; rfl
  | cons img rest ih =>
    intro seen stats s
    by_cases hseen : img.xref ∈ seen
    · simp [process_page_images, iter_unique_images_aux, hseen, ih]
    · simp only [process_page_images, iter_unique_images_aux, if_neg hseen]
      cases hq : optimize_image cfg encV encP img s with
      | mk r s1 =>
        cases r with
        | error e => simp [process_images, hq, ih]
        | ok t =>
          obtain ⟨o, os, opts⟩ := t
          by_cases ho : o = true
          · subst ho
            simp [process_images, hq, ih]
          · simp only [Bool.not_eq_true] at ho
            subst ho
            simp [process_images, hq, ih]

/-- On a document whose single page enumerates successfully, the
fallible run completes and coincides with the flat `_compress_document`
model. -/
theorem compress_document_run_single_page (images : List ImageRef)
    (image_quality : ℤ) (max_dpi : Option ℤ) (skip_small_images : Bool)
    (small_image_threshold : ℕ) (convert_large_pngs_to_jpeg : Bool)
    (png_to_jpeg_threshold : ℕ) (encV encP : Encoder) :
    compress_document_run [.ok images] image_quality max_dpi skip_small_images
        small_image_threshold convert_large_pngs_to_jpeg png_to_jpeg_threshold
        encV encP =
      (.ok (compress_document images image_quality max_dpi skip_small_images
          small_image_threshold convert_large_pngs_to_jpeg png_to_jpeg_threshold
          encV encP).1,
       (compress_document images image_quality max_dpi skip_small_images
          small_image_threshold convert_large_pngs_to_jpeg png_to_jpeg_threshold
          encV encP).2) := by
  simp only [compress_document_run, compress_document, iter_unique_images]
  have h := process_page_images_eq_filtered
    ⟨max 1 (min image_quality 100), max_dpi, skip_small_images, small_image_threshold,
     convert_large_pngs_to_jpeg, png_to_jpeg_threshold⟩ encV encP
    images [] ⟨0, 0, 0⟩ ⟨[], [], []⟩
  cases hp : process_page_images
      ⟨max 1 (min image_quality 100), max_dpi, skip_small_images, small_image_threshold,
       convert_large_pngs_to_jpeg, png_to_jpeg_threshold⟩ encV encP
      images [] ⟨0, 0, 0⟩ ⟨[], [], []⟩ with
  | mk seen1 t =>
    obtain ⟨stats1, s1⟩ := t
    rw [hp] at h
    simp [compress_pages, hp, ← h]

/-- Claim C5, counterexample: a three-page document whose second page's
enumeration host calls raise.  The first page's image is processed (and
replaced), but the enumeration exception surfaces at the `for` statement
outside the per-image `try`, so the run aborts with that exception — it
propagates to the caller of `compress_pdf` — and the third page's image
is never processed, refuting "any exception raised anywhere during one
image's processing (enumeration, ...) is caught at the per-image
boundary" and "no per-image error ever propagates". -/
theorem c5_counterexample :
    compress_document_run [.ok [img_jpg8a], .error .otherError, .ok [img_png8]]
        90 none false 500000 true 200000 enc_small enc_fail =
      (.error .otherError,
       ⟨[([7, 7, 7, 7], ⟨true, some [9], 4, 1⟩)], [(3, [9])], [[7, 7, 7, 7]]⟩) ∧
    ∀ stats1,
      (compress_document_run [.ok [img_jpg8a], .error .otherError, .ok [img_png8]]
        90 none false 500000 true 200000 enc_small enc_fail).1 ≠ .ok stats1 := by
  have h : compress_document_run [.ok [img_jpg8a], .error .otherError, .ok [img_png8]]
      90 none false 500000 true 200000 enc_small enc_fail =
      (.error .otherError,
       ⟨[([7, 7, 7, 7], ⟨true, some [9], 4, 1⟩)], [(3, [9])], [[7, 7, 7, 7]]⟩) := by
    norm_num [compress_document_run, compress_pages, process_page_images, optimize_image,
      cache_get, pipeline_has_alpha, has_transparency, pyvips_args, img_jpg8a, img_png8,
      enc_small, enc_fail, compute_target_dimensions]
  refine ⟨h, fun stats1 => ?_⟩
  rw [h]
  simp

/-- Claim C5, amended: an exception raised by `optimize_image` during one
image's processing (dimension planning, transparency detection, encoding,
acceptance, replacement) is caught at the per-image boundary in
`_compress_document` — that image is left untouched (cache and
replacements unchanged) and the loop continues with the remaining
images — and a run whose page enumeration never raises always completes
without error; but an exception raised by the enumeration's host calls
(`doc[page_index]`, `page.get_images`) occurs at the `for` statement
outside the per-image `try` and propagates to the caller of
`compress_pdf`, aborting the remaining images. -/
theorem c5_error_boundary_amended (cfg : Config) (encV encP : Encoder) :
    (∀ (img : ImageRef) (rest : List ImageRef) (seen : List ℕ) (stats : RunStats)
        (s s1 : DocState) (e : PyExn),
      img.xref ∉ seen →
      optimize_image cfg encV encP img s = (.error e, s1) →
      s1.cache = s.cache ∧ s1.replaced = s.replaced ∧
      process_page_images cfg encV encP (img :: rest) seen stats s =
        process_page_images cfg encV encP rest (img.xref :: seen) stats s1) ∧
    (∀ (pages : List PageImages) (seen : List ℕ) (stats : RunStats) (s : DocState),
      (∀ q ∈ pages, ∃ l, q = .ok l) →
      ∃ stats1, (compress_pages cfg encV encP pages seen stats s).1 = .ok stats1) ∧
    (∀ (ok_pages later_pages : List PageImages) (e : PyExn) (seen : List ℕ)
        (stats : RunStats) (s : DocState),
      (∀ q ∈ ok_pages, ∃ l, q = .ok l) →
      (compress_pages cfg encV encP (ok_pages ++ .error e :: later_pages)
          seen stats s).1 = .error e) := by
  refine ⟨?_, ?_, ?_⟩
  · intro img rest seen stats s s1 e hseen h
    obtain ⟨h1, h2⟩ := optimize_image_error_state cfg encV encP img s e s1 h
    exact ⟨h1, h2, by simp [process_page_images, if_neg hseen, h]⟩
  · intro pages
    induction pages with
    | nil => intro seen stats s _; exact ⟨stats, rfl⟩
    | cons q rest ih =>
      intro seen stats s hok
      obtain ⟨l, rfl⟩ := hok q (List.mem_cons_self q rest)
      cases hp : process_page_images cfg encV encP l seen stats s with
      | mk seen1 t =>
        obtain ⟨stats1, s1⟩ := t
        simpa [compress_pages, hp] using
          ih seen1 stats1 s1 (fun q2 hq2 => hok q2 (List.mem_cons_of_mem _ hq2))
  · intro ok_pages
    induction ok_pages with
    | nil => intro later_pages e seen stats s _; rfl
    | cons q rest ih =>
      intro later_pages e seen stats s hok
      obtain ⟨l, rfl⟩ := hok q (List.mem_cons_self q rest)
      cases hp : process_page_images cfg encV encP l seen stats s with
      | mk seen1 t =>
        obtain ⟨stats1, s1⟩ := t
        simpa [compress_pages, hp] using
          ih later_pages e seen1 stats1 s1
            (fun q2 hq2 => hok q2 (List.mem_cons_of_mem _ hq2))

/-- Witness for C5 (amended) at a concrete input: with both backends
raising, the per-image failure leaves cache and document unchanged and
the page's loop continues past it. -/
theorem c5_error_boundary_amended_witness :
    (⟨[], [], [[7, 7, 7, 7]]⟩ : DocState).cache = (⟨[], [], []⟩ : DocState).cache ∧
    (⟨[], [], [[7, 7, 7, 7]]⟩ : DocState).replaced =
      (⟨[], [], []⟩ : DocState).replaced ∧
    process_page_images ⟨90, none, false, 500000, true, 200000⟩ enc_fail enc_fail
        [img_jpg8a] [] ⟨0, 0, 0⟩ ⟨[], [], []⟩ =
      process_page_images ⟨90, none, false, 500000, true, 200000⟩ enc_fail enc_fail
        [] [3] ⟨0, 0, 0⟩ ⟨[], [], [[7, 7, 7, 7]]⟩ :=
  (c5_error_boundary_amended ⟨90, none, false, 500000, true, 200000⟩
      enc_fail enc_fail).1
    img_jpg8a [] [] ⟨0, 0, 0⟩ ⟨[], [], []⟩ ⟨[], [], [[7, 7, 7, 7]]⟩ .otherError
    (by decide) (by decide)

/-- Occurrence counts distribute over trace concatenation. -/
theorem count_payload_append (l1 l2 : List (List ℕ)) (p : List ℕ) :
    count_payload (l1 ++ l2) p = count_payload l1 p + count_payload l2 p := by
  induction l1 with
  | nil => simp [count_payload]
  | cons q rest ih => simp [count_payload, ih]; omega

/-- With a never-raising primary backend, one `optimize_image` call
either leaves cache and encode trace unchanged, or writes a cache entry
for a previously uncached digest without encoding, or enters the
encoding phase exactly once for a previously uncached digest and caches
it. -/
theorem optimize_image_encode_cases (cfg : Config) (encV encP : Encoder)
    (img : ImageRef) (s : DocState) (hV : ∀ a, (encV a).isSome = true) :
    ((optimize_image cfg encV encP img s).2.encoded = s.encoded ∧
      (optimize_image cfg encV encP img s).2.cache = s.cache) ∨
    (∃ entry, cache_get s.cache img.payload = none ∧
      (optimize_image cfg encV encP img s).2.encoded = s.encoded ∧
      (optimize_image cfg encV encP img s).2.cache = (img.payload, entry) :: s.cache) ∨
    (∃ entry, cache_get s.cache img.payload = none ∧
      (optimize_image cfg encV encP img s).2.encoded = s.encoded ++ [img.payload] ∧
      (optimize_image cfg encV encP img s).2.cache = (img.payload, entry) :: s.cache) := by
  cases hc : cache_get s.cache img.payload with
  | some cached =>
    left
    cases hd : cached.data with
    | some d => by_cases ho : cached.optimized = true <;> simp [optimize_image, hc, hd, ho]
    | none => simp [optimize_image, hc, hd]
  | none =>
    by_cases hs : cfg.skip_small_images ∧ img.payload.length ≤ cfg.small_image_threshold
    · right; left
      exact ⟨⟨false, none, img.payload.length, img.payload.length⟩, rfl,
        by simp [optimize_image, hc, if_pos hs],
        by simp [optimize_image, hc, if_pos hs]⟩
    · by_cases hb : img.bpc ≤ 1 ∧ img.ext ≠ "png"
      · right; left
        exact ⟨⟨false, none, img.payload.length, img.payload.length⟩, rfl,
          by simp [optimize_image, hc, if_neg hs, if_pos hb],
          by simp [optimize_image, hc, if_neg hs, if_pos hb]⟩
      · cases hdims : compute_target_dimensions img.bbox_result img.width img.height
            cfg.max_dpi with
        | error e =>
          left
          constructor <;> simp [optimize_image, hc, if_neg hs, if_neg hb, hdims]
        | ok twth =>
          obtain ⟨tw, th⟩ := twth
          have hV2 := hV (pyvips_args cfg img tw th (pipeline_has_alpha img))
          cases henc : encV (pyvips_args cfg img tw th (pipeline_has_alpha img)) with
          | none => rw [henc] at hV2; simp at hV2
          | some b =>
            right; right
            by_cases hg : (b.length : ℚ) ≥ (img.payload.length : ℚ) * (98 / 100)
            · exact ⟨⟨false, none, img.payload.length, img.payload.length⟩, rfl,
                by simp [optimize_image, hc, if_neg hs, if_neg hb, hdims, henc, if_pos hg],
                by simp [optimize_image, hc, if_neg hs, if_neg hb, hdims, henc, if_pos hg]⟩
            · exact ⟨⟨true, some b, img.payload.length, b.length⟩, rfl,
                by simp [optimize_image, hc, if_neg hs, if_neg hb, hdims, henc, if_neg hg],
                by simp [optimize_image, hc, if_neg hs, if_neg hb, hdims, henc, if_neg hg]⟩

/-- Prepending a cache entry preserves presence of every digest. -/
theorem cache_get_cons_ne_none (k p : List ℕ) (v : ImageOptimizationResult)
    (c : List (List ℕ × ImageOptimizationResult)) (h : cache_get c p ≠ none) :
    cache_get ((k, v) :: c) p ≠ none := by
  by_cases hk : k = p <;> simp [cache_get, hk, h]

/-- One step of the per-image loop preserves the run invariant
`cache_inv` when the primary backend never raises. -/
theorem cache_inv_step (cfg : Config) (encV encP : Encoder) (img : ImageRef)
    (s : DocState) (hV : ∀ a, (encV a).isSome = true) (h : cache_inv s) :
    cache_inv (optimize_image cfg encV encP img s).2 := by
  rcases optimize_image_encode_cases cfg encV encP img s hV with
    ⟨he, hcc⟩ | ⟨entry, hmiss, he, hcc⟩ | ⟨entry, hmiss, he, hcc⟩
  · intro p
    rw [he, hcc]
    exact h p
  · intro p
    rw [he, hcc]
    exact ⟨(h p).1, fun h1 => cache_get_cons_ne_none _ _ _ _ ((h p).2 h1)⟩
  · intro p
    rw [he, hcc, count_payload_append]
    by_cases hp : img.payload = p
    · subst hp
      have hzero : count_payload s.encoded img.payload = 0 := by
        by_contra hnz
        exact ((h img.payload).2 (Nat.one_le_iff_ne_zero.mpr hnz)) hmiss
      constructor
      · simp [hzero, count_payload]
      · intro _
        simp [cache_get]
    · have hone : count_payload [img.payload] p = 0 := by simp [count_payload, hp]
      rw [hone]
      constructor
      · simpa using (h p).1
      · intro h1
        simp only [Nat.add_zero] at h1
        exact cache_get_cons_ne_none _ _ _ _ ((h p).2 h1)

/-- The per-image loop preserves the run invariant `cache_inv` when the
primary backend never raises. -/
theorem process_images_cache_inv (cfg : Config) (encV encP : Encoder)
    (hV : ∀ a, (encV a).isSome = true) :
    ∀ (l : List ImageRef) (stats : RunStats) (s : DocState),
      cache_inv s → cache_inv (process_images cfg encV encP l stats s).2 := by
  intro l
  induction l with
  | nil => intro stats s h; exact h
  | cons img rest ih =>
    intro stats s h
    have hstep := cache_inv_step cfg encV encP img s hV h
    cases hq : optimize_image cfg encV encP img s with
    | mk r s1 =>
      rw [hq] at hstep
      cases r with
      | error e => simpa [process_images, hq] using ih stats s1 hstep
      | ok t =>
        obtain ⟨o, os, opts⟩ := t
        by_cases ho : o = true
        · subst ho
          simpa [process_images, hq] using ih _ s1 hstep
        · simp only [Bool.not_eq_true] at ho
          subst ho
          simpa [process_images, hq] using ih stats s1 hstep

/-- Claim C1, amended: any occurrence whose digest is already a key of
the cache performs no encode and replays the stored outcome — calling
`replace_image` with the cached bytes iff the entry is Accepted with
stored data, and doing nothing otherwise; and in any run of
`_compress_document` whose primary backend never raises, the encoding
phase is entered at most once per distinct raw-image byte content.
(The original claim's unconditional "at most once per distinct content"
fails when an occurrence's processing raises before an outcome is
cached: a later occurrence of the same content encodes again, see the
counterexample.) -/
theorem c1_dedup_amended (images : List ImageRef) (image_quality : ℤ)
    (max_dpi : Option ℤ) (skip_small_images : Bool) (small_image_threshold : ℕ)
    (convert_large_pngs_to_jpeg : Bool) (png_to_jpeg_threshold : ℕ)
    (encV encP : Encoder) (hV : ∀ a, (encV a).isSome = true) :
    (∀ (cfg2 : Config) (encV2 encP2 : Encoder) (img : ImageRef) (s : DocState)
        (cached : ImageOptimizationResult),
      cache_get s.cache img.payload = some cached →
      optimize_image cfg2 encV2 encP2 img s =
        (match cached.data, cached.optimized with
         | some d, true =>
           (.ok (true, cached.original_size, cached.optimized_size),
            { s with replaced := s.replaced ++ [(img.xref, d)] })
         | some _, false => (.ok (false, cached.original_size, cached.original_size), s)
         | none, _ => (.ok (false, cached.original_size, cached.original_size), s))) ∧
    (∀ p, count_payload (compress_document images image_quality max_dpi
        skip_small_images small_image_threshold convert_large_pngs_to_jpeg
        png_to_jpeg_threshold encV encP).2.encoded p ≤ 1) := by
  constructor
  · intro cfg2 encV2 encP2 img s cached hc
    cases hd : cached.data with
    | some d =>
      by_cases ho : cached.optimized = true
      · simp [optimize_image, hc, hd, ho]
      · simp only [Bool.not_eq_true] at ho
        simp [optimize_image, hc, hd, ho]
    | none => simp [optimize_image, hc, hd]
  · have h0 : cache_inv ⟨[], [], []⟩ := by
      intro p
      refine ⟨by simp [count_payload], fun h1 => ?_⟩
      simp [count_payload] at h1
    intro p
    exact (process_images_cache_inv _ encV encP hV (iter_unique_images images)
      ⟨0, 0, 0⟩ ⟨[], [], []⟩ h0 p).1

/-- Claim C1, counterexample: two occurrences of byte-identical content
under distinct xrefs with backends that always raise.  The first
occurrence's processing raises, so no outcome is cached, and the second
occurrence enters the encoding phase again — two encoder invocations for
one distinct byte content, refuting "invoked at most once per distinct
raw-image byte content". -/
theorem c1_counterexample :
    ¬ count_payload (compress_document [img_jpg8a, img_jpg8b] 90 none false 500000
        true 200000 enc_fail enc_fail).2.encoded [7, 7, 7, 7] ≤ 1 := by
  decide

/-- Witness for C1 (amended) at a concrete input: with a total primary
backend, the two-occurrence run encodes the shared content at most
once. -/
theorem c1_dedup_amended_witness :
    count_payload (compress_document [img_png8, img_jpg1] 90 none false 500000
        true 200000 enc_small enc_fail).2.encoded [7, 7, 7, 7] ≤ 1 :=
  (c1_dedup_amended [img_png8, img_jpg1] 90 none false 500000 true 200000
    enc_small enc_fail (fun _ => rfl)).2 [7, 7, 7, 7]

/-- Claim C10: with a non-empty original, `get_compression_stats`
returns the four fields computed from the two byte lengths, the percent
being `reduction_bytes / original_size * 100`; with an empty original
the unguarded division raises `ZeroDivisionError` for every compressed
input. -/
theorem c10_compression_stats (original_bytes compressed_bytes : List ℕ) :
    (original_bytes.length ≠ 0 →
      get_compression_stats original_bytes compressed_bytes =
        .ok ⟨original_bytes.length, compressed_bytes.length,
             (original_bytes.length : ℤ) - (compressed_bytes.length : ℤ),
             (((original_bytes.length : ℤ) - (compressed_bytes.length : ℤ) : ℤ) : ℚ) /
               (original_bytes.length : ℚ) * 100⟩) ∧
    (original_bytes.length = 0 →
      get_compression_stats original_bytes compressed_bytes =
        .error .zeroDivisionError) := by
  constructor
  · intro h
    simp [get_compression_stats, h]
  · intro h
    simp [get_compression_stats, h]

/-- Witness for C10 at Scenario C's input: 1000 original bytes against
500 compressed bytes yield a 50% reduction, and an empty original raises
`ZeroDivisionError`. -/
theorem c10_compression_stats_witness :
    get_compression_stats (List.replicate 1000 120) (List.replicate 500 121) =
      .ok ⟨1000, 500, 500, 50⟩ ∧
    get_compression_stats [] [1] = .error .zeroDivisionError := by
  constructor
  · have h := (c10_compression_stats (List.replicate 1000 120)
      (List.replicate 500 121)).1 (by rw [List.length_replicate]; omega)
    rw [h]
    norm_num [List.length_replicate]
  · exact (c10_compression_stats [] [1]).2 rfl

end PdfCompression
